import Mathlib

/-!
# Verification of the HEIC → JPEG converter (`src/main.js`)

Shallow embedding of the conversion pipeline of `src/main.js`:
file filtering, HEIC classification, the two conversion paths, the
thumbnail generator, object-URL lifecycle bookkeeping and the
download-handle tracker set.

External collaborators (the `heic-to` library, the platform image
decoder `loadImage`, `canvas.toBlob`, `canvas.toDataURL`) are modelled
as oracles: `Except`-valued outcomes supplied by the environment, since
each of them can either produce a value or fail.  All control flow
around them (ordering, error propagation, try/catch/finally, the
tracker set mutations) is translated directly from the source.
-/

set_option autoImplicit false

namespace HeicConv

/-- An error message raised by an external collaborator
(decoder / image loader / encoder). -/
abbrev Err := String

/-! ## Object-URL action traces

`URL.createObjectURL` / `URL.revokeObjectURL` calls are recorded as an
action trace, so that leak claims become statements about the trace. -/

/-- One object-URL lifecycle action: creation or revocation of the
handle with the given identifier. -/
inductive UrlAction where
  | create (id : Nat)
  | revoke (id : Nat)
deriving DecidableEq, Repr

/-! ## Standard Conversion Path (`convertImageFileToJpeg`, main.js 150-166)

Source:
```js
const url = URL.createObjectURL(file);
const img = await loadImage(url);      // may reject
URL.revokeObjectURL(url);              // only reached on success
canvas.width = img.naturalWidth; ... ctx.drawImage(img, 0, 0);
const thumbDataUrl = createThumbnailDataUrl(canvas);
const jpegBlob = await canvasToJpegBlob(canvas, 0.9);  // may reject
addDownloadLink(file.name, jpegBlob, thumbDataUrl);
```
The oracle `load` is the outcome of `loadImage` (natural width and
height on success), `enc` the outcome of `canvasToJpegBlob`.  The
returned trace records what happened to the transient source URL
(handle id 0 of this call).  Note that the revocation on line 155 of
the source is only executed when `loadImage` resolved: when it rejects,
the exception propagates out of `convertImageFileToJpeg` before the
revoke statement runs. -/
def convertImageFileToJpeg (load : Except Err (Nat × Nat)) (enc : Except Err Unit) :
    Except Err (Nat × Nat) × List UrlAction :=
  match load with
  | .error e => (.error e, [.create 0])
  | .ok (w, h) =>
    match enc with
    | .error e => (.error e, [.create 0, .revoke 0])
    | .ok _ => (.ok (w, h), [.create 0, .revoke 0])

/-! ## Blob-based thumbnail entry point (`createThumbnailFromBlob`, main.js 281-302)

Source:
```js
const url = URL.createObjectURL(blob);
try {
  const img = await loadImage(url);          // may reject
  ... scale, draw ...
  return tempCanvas.toDataURL("image/jpeg", 0.7);  // may throw
} finally {
  URL.revokeObjectURL(url);                  // runs on every exit path
}
```
The `finally` clause runs on every exit path, so every branch of the
translation ends the trace with the revocation of handle 0. -/
def createThumbnailFromBlob (load : Except Err (Nat × Nat)) (enc : Except Err String) :
    Except Err String × List UrlAction :=
  match load with
  | .error e => (.error e, [.create 0, .revoke 0])
  | .ok _ =>
    match enc with
    | .error e => (.error e, [.create 0, .revoke 0])
    | .ok s => (.ok s, [.create 0, .revoke 0])

/-- A trace in which handle 0 was created and revoked exactly once. -/
def balancedTrace (tr : List UrlAction) : Prop :=
  tr.count (.create 0) = 1 ∧ tr.count (.revoke 0) = 1

instance (tr : List UrlAction) : Decidable (balancedTrace tr) := by
  unfold balancedTrace; infer_instance

/-! ## Thumbnail scaling (`createThumbnailDataUrl`, main.js 259-278, and the
scale computation of `createThumbnailFromBlob`, main.js 287-289)

Source:
```js
const scale = Math.min(maxWidth / width, 1);
const thumbWidth = Math.round(width * scale);
const thumbHeight = Math.round(height * scale);
```
Arithmetic is modelled over `ℚ`; `Math.round` rounds half away from
zero for positive arguments, i.e. `⌊x + 1/2⌋`. -/

/-- JavaScript `Math.round` on a non-negative rational. -/
def jsRound (q : ℚ) : ℤ := ⌊q + 1 / 2⌋

/-- `Math.min(maxWidth / width, 1)` of main.js 266 / 287. -/
def thumbScale (width maxWidth : ℕ) : ℚ :=
  min ((maxWidth : ℚ) / (width : ℚ)) 1

/-- `Math.round(width * scale)` of main.js 267 / 288. -/
def thumbWidth (width maxWidth : ℕ) : ℤ :=
  jsRound ((width : ℚ) * thumbScale width maxWidth)

/-- `Math.round(height * scale)` of main.js 268 / 289. -/
def thumbHeight (width height maxWidth : ℕ) : ℤ :=
  jsRound ((height : ℚ) * thumbScale width maxWidth)

/-- Canvas-based entry point (main.js 259-278): returns `none` when
either source dimension is zero, otherwise the scaled dimensions. -/
def createThumbnailDataUrlDims (width height maxWidth : ℕ) : Option (ℤ × ℤ) :=
  if width = 0 ∨ height = 0 then none
  else some (thumbWidth width maxWidth, thumbHeight width height maxWidth)

/-- Dimensions drawn by the blob-based entry point (main.js 287-289). -/
def createThumbnailFromBlobDims (width height maxWidth : ℕ) : ℤ × ℤ :=
  (thumbWidth width maxWidth, thumbHeight width height maxWidth)

/-! ## Input filtering and batch processing (`processFiles`, main.js 88-129)

JS strings are modelled as `List Char`; `toLowerCase` is `map
Char.toLower`, `startsWith`/`endsWith` are prefix/suffix tests. -/

/-- A selected file: its `name` and declared media `type`. -/
structure FileDesc where
  name : List Char
  type : List Char
deriving DecidableEq, Repr

/-- The filter predicate of main.js 95-100:
`file.type.startsWith("image/") || file.name.toLowerCase().endsWith(".heic")
|| file.name.toLowerCase().endsWith(".heif")`. -/
def keepFile (f : FileDesc) : Bool :=
  "image/".toList.isPrefixOf f.type ||
  ".heic".toList.isSuffixOf (f.name.map Char.toLower) ||
  ".heif".toList.isSuffixOf (f.name.map Char.toLower)

/-- `files.filter(...)` of main.js 95-100. -/
def filterFiles (files : List FileDesc) : List FileDesc :=
  files.filter keepFile

/-- Outcomes of the external collaborators for one file: the HEIC
classifier, the `heic-to` decoder, the image load and `toDataURL` of
the blob-based thumbnail, and the image load and `canvas.toBlob` of the
standard path. -/
structure FileEnv where
  isHeicR : Except Err Bool
  heicToR : Except Err Unit
  thumbLoadR : Except Err (Nat × Nat)
  thumbEncR : Except Err String
  loadImageR : Except Err (Nat × Nat)
  encodeR : Except Err Unit

/-- `safeIsHeic` (main.js 169-176): a classifier failure is caught and
treated as `false`. -/
def safeIsHeic (r : Except Err Bool) : Bool :=
  match r with
  | .ok b => b
  | .error _ => false

/-- Which conversion path a file is routed to. -/
inductive Path where
  | heic
  | standard
deriving DecidableEq, Repr

/-- The routing decision of main.js 116-121: `if (heic)`. -/
def route (e : FileEnv) : Path :=
  if safeIsHeic e.isHeicR then .heic else .standard

/-- Outcome of `convertHeicFileToJpeg` (main.js 133-148): `heicTo`,
then `createThumbnailFromBlob`, then `addDownloadLink` (infallible
DOM construction); the first failing step propagates. -/
def convertHeicFileToJpegResult (e : FileEnv) : Except Err Unit :=
  match e.heicToR with
  | .error err => .error err
  | .ok _ =>
    match (createThumbnailFromBlob e.thumbLoadR e.thumbEncR).1 with
    | .error err => .error err
    | .ok _ => .ok ()

/-- Outcome of processing one file inside the `try` of main.js 115-121:
route, then run the chosen conversion path. -/
def convertFileResult (e : FileEnv) : Except Err Unit :=
  match route e with
  | .heic => convertHeicFileToJpegResult e
  | .standard =>
    match (convertImageFileToJpeg e.loadImageR e.encodeR).1 with
    | .error err => .error err
    | .ok _ => .ok ()

/-- One entry appended to the `#output` element: a progress log line
(`appendMessage` at the top of either conversion path), a result row
(`addDownloadLink`), or a per-file error log line (the `catch` of
main.js 122-125). -/
inductive OutEntry where
  | progressLog (p : Path) (name : List Char)
  | row (name : List Char)
  | errorLog (name : List Char) (reason : Err)
deriving DecidableEq, Repr

/-- The output entries produced by one iteration of the loop of
main.js 114-126: the path's progress message, then either a result row
or an error log line. -/
def processFile (f : FileDesc) (e : FileEnv) : List OutEntry :=
  match convertFileResult e with
  | .ok _ => [.progressLog (route e) f.name, .row f.name]
  | .error err => [.progressLog (route e) f.name, .errorLog f.name err]

/-- Tracker-set effect of one loop iteration: `addDownloadLink`
(main.js 206-208) creates a fresh handle and registers it, and is
reached only when the whole conversion succeeded. -/
def processFileTracker (e : FileEnv) (tracked : List Nat) (next : Nat) :
    List Nat × Nat :=
  match convertFileResult e with
  | .ok _ => (tracked ++ [next], next + 1)
  | .error _ => (tracked, next)

/-- The loop of main.js 114-126 over the filtered files, threading the
tracker set and the next fresh handle id. -/
def runBatchLoop : List (FileDesc × FileEnv) → List Nat → Nat →
    List OutEntry × List Nat × Nat
  | [], tracked, next => ([], tracked, next)
  | (f, e) :: rest, tracked, next =>
    let entries := processFile f e
    let (tracked', next') := processFileTracker e tracked next
    let (restEntries, trackedR, nextR) := runBatchLoop rest tracked' next'
    (entries ++ restEntries, trackedR, nextR)

/-- Result of one `processFiles` invocation: the output entries, the
final status-line text, and the tracker set afterwards. -/
structure BatchResult where
  entries : List OutEntry
  status : String
  tracked : List Nat
deriving DecidableEq, Repr

/-- `processFiles` (main.js 88-129).  `tracked0` is the tracker set on
entry; when the batch actually runs, main.js 109-111 revokes and clears
it before the loop, so the loop starts from the empty set. -/
def processFiles (inputs : List (FileDesc × FileEnv)) (tracked0 : List Nat)
    (next0 : Nat) : BatchResult :=
  if inputs.isEmpty then ⟨[], "No files selected.", tracked0⟩
  else if (inputs.filter fun p => keepFile p.1).isEmpty then
    ⟨[], "No supported image files found.", tracked0⟩
  else
    ⟨(runBatchLoop (inputs.filter fun p => keepFile p.1) [] next0).1,
      "Done.",
      (runBatchLoop (inputs.filter fun p => keepFile p.1) [] next0).2.1⟩

/-- Result rows in an output fragment. -/
def countRows (l : List OutEntry) : Nat :=
  l.countP fun x => match x with | .row _ => true | _ => false

/-- Per-file failure log lines in an output fragment. -/
def countErrors (l : List OutEntry) : Nat :=
  l.countP fun x => match x with | .errorLog _ _ => true | _ => false

/-- Terminal entries (row or error line), i.e. everything except
progress messages. -/
def countTerminal (l : List OutEntry) : Nat :=
  l.countP fun x => match x with | .progressLog _ _ => false | _ => true

lemma processFile_counts (f : FileDesc) (e : FileEnv) :
    countRows (processFile f e) + countErrors (processFile f e) = 1 ∧
    countTerminal (processFile f e) = 1 := by
  unfold processFile countRows countErrors countTerminal
  cases convertFileResult e <;>
    simp [List.countP_cons, List.countP_nil]

lemma runBatchLoop_counts (l : List (FileDesc × FileEnv)) :
    ∀ tracked next,
      countRows (runBatchLoop l tracked next).1 +
        countErrors (runBatchLoop l tracked next).1 = l.length ∧
      countTerminal (runBatchLoop l tracked next).1 = l.length := by
  induction l with
  | nil => intro tracked next; simp [runBatchLoop, countRows, countErrors, countTerminal]
  | cons p rest ih =>
    intro tracked next
    obtain ⟨f, e⟩ := p
    have hfile := processFile_counts f e
    have hrest := ih (processFileTracker e tracked next).1
      (processFileTracker e tracked next).2
    unfold runBatchLoop
    simp only [countRows, countErrors, countTerminal, List.countP_append,
      List.length_cons] at *
    omega

lemma runBatchLoop_mem (l : List (FileDesc × FileEnv)) :
    ∀ tracked next, ∀ p ∈ l, ∀ x ∈ processFile p.1 p.2,
      x ∈ (runBatchLoop l tracked next).1 := by
  induction l with
  | nil => intro _ _ p hp; simp at hp
  | cons q rest ih =>
    intro tracked next p hp x hx
    obtain ⟨f, e⟩ := q
    unfold runBatchLoop
    rcases List.mem_cons.mp hp with h | h
    · subst h
      exact List.mem_append_left _ hx
    · exact List.mem_append_right _
        (ih (processFileTracker e tracked next).1
          (processFileTracker e tracked next).2 p h x hx)

/-! ## Download-handle lifecycle (`objectUrls`, main.js 38, 109-112,
206-208, 236-242, 305-308)

Handles are identified by creation order (`Nat`).  The state records
the tracker set `tracked` (`objectUrls`), the handles whose download
anchor is currently in the DOM (`domLinks`), the handles with a
scheduled revocation timeout (`pending`), and the list of revocations
performed so far (`log`, most recent first). -/

/-- Application state relevant to download-handle lifecycle. -/
structure AppState where
  nextHandle : Nat
  tracked : List Nat
  domLinks : List Nat
  pending : List Nat
  log : List Nat
deriving DecidableEq, Repr

/-- Page load: no handles exist. -/
def initState : AppState :=
  ⟨0, [], [], [], []⟩

/-- `objectUrls.add(url)` (main.js 208): set insertion. -/
def trackerRegister (st : AppState) (h : Nat) : AppState :=
  if h ∈ st.tracked then st else { st with tracked := st.tracked ++ [h] }

/-- `URL.revokeObjectURL(url); objectUrls.delete(url)` (main.js 239-240):
the revocation is logged and the handle removed from the set. -/
def trackerRevoke (st : AppState) (h : Nat) : AppState :=
  { st with
      tracked := st.tracked.filter (fun x => x != h),
      log := h :: st.log }

/-- `objectUrls.forEach(url => URL.revokeObjectURL(url)); objectUrls.clear()`
(main.js 110-111 and 306-307): every tracked handle is revoked, then
the set is cleared. -/
def revokeAllS (st : AppState) : AppState :=
  { st with tracked := [], log := st.tracked ++ st.log }

/-- Lifecycle events.  `add` is a result row being presented
(`addDownloadLink`, main.js 206-247); `click h` is the user activating
the download anchor of handle `h` (schedules the 1000 ms revocation
timeout, main.js 236-242); `timer h` is that timeout firing;
`newBatch` is the output reset at the start of a batch (main.js
109-112); `teardown` is the `beforeunload` handler (main.js 305-308). -/
inductive Event where
  | add
  | click (h : Nat)
  | timer (h : Nat)
  | newBatch
  | teardown
deriving DecidableEq, Repr

/-- Small-step semantics of the lifecycle events.  Events whose
precondition does not hold (clicking an anchor that is not in the DOM,
a timeout that was never scheduled) leave the state unchanged.  Note
that `newBatch` clears the DOM anchors and the tracker set but does
NOT cancel pending timeouts — the source never calls `clearTimeout`. -/
def step (st : AppState) : Event → AppState
  | .add =>
    let st' := trackerRegister st st.nextHandle
    { st' with
        nextHandle := st.nextHandle + 1,
        domLinks := st.domLinks ++ [st.nextHandle] }
  | .click h =>
    if h ∈ st.domLinks then { st with pending := st.pending ++ [h] } else st
  | .timer h =>
    if h ∈ st.pending then
      let st' := trackerRevoke st h
      { st' with pending := st.pending.erase h }
    else st
  | .newBatch => { revokeAllS st with domLinks := [] }
  | .teardown => revokeAllS st

/-- State after a sequence of events starting from page load. -/
def run (evs : List Event) : AppState :=
  evs.foldl step initState

/-- Inductive invariant: no tracked handle has ever been revoked, and
every handle mentioned anywhere was actually allocated. -/
def GoodState (st : AppState) : Prop :=
  (∀ h ∈ st.tracked, st.log.count h = 0) ∧
  (∀ h ∈ st.tracked, h < st.nextHandle) ∧
  (∀ h ∈ st.pending, h < st.nextHandle) ∧
  (∀ h ∈ st.domLinks, h < st.nextHandle) ∧
  (∀ h ∈ st.log, h < st.nextHandle)

lemma good_init : GoodState initState := by
  refine ⟨?_, ?_, ?_, ?_, ?_⟩ <;> intro h hmem <;> simp [initState] at hmem

lemma good_step (st : AppState) (e : Event) (hst : GoodState st) :
    GoodState (step st e) := by
  obtain ⟨h1, h2, h3, h4, h5⟩ := hst
  cases e with
  | add =>
    have hnotin : st.nextHandle ∉ st.tracked := fun hmem =>
      lt_irrefl _ (h2 _ hmem)
    simp only [step, trackerRegister, if_neg hnotin]
    refine ⟨?_, ?_, ?_, ?_, ?_⟩
    · intro h hmem
      rcases List.mem_append.mp hmem with hm | hm
      · exact h1 h hm
      · simp only [List.mem_singleton] at hm
        subst hm
        exact List.count_eq_zero.mpr fun hlog => lt_irrefl _ (h5 _ hlog)
    · intro h hmem
      rcases List.mem_append.mp hmem with hm | hm
      · exact Nat.lt_succ_of_lt (h2 h hm)
      · simp only [List.mem_singleton] at hm
        subst hm
        exact Nat.lt_succ_self _
    · intro h hmem; exact Nat.lt_succ_of_lt (h3 h hmem)
    · intro h hmem
      rcases List.mem_append.mp hmem with hm | hm
      · exact Nat.lt_succ_of_lt (h4 h hm)
      · simp only [List.mem_singleton] at hm
        subst hm
        exact Nat.lt_succ_self _
    · intro h hmem; exact Nat.lt_succ_of_lt (h5 h hmem)
  | click a =>
    simp only [step]
    split
    · refine ⟨h1, h2, ?_, h4, h5⟩
      intro h hmem
      rcases List.mem_append.mp hmem with hm | hm
      · exact h3 h hm
      · simp only [List.mem_singleton] at hm
        subst hm
        exact h4 h (by assumption)
    · exact ⟨h1, h2, h3, h4, h5⟩
  | timer a =>
    simp only [step]
    split
    · simp only [trackerRevoke]
      refine ⟨?_, ?_, ?_, ?_, ?_⟩
      · intro h hmem
        have := List.mem_filter.mp hmem
        have hne : h ≠ a := by
          have hb := this.2
          simpa using hb
        rw [List.count_cons]
        simp only [beq_iff_eq, if_neg (Ne.symm hne), Nat.add_zero]
        exact h1 h this.1
      · intro h hmem; exact h2 h (List.mem_filter.mp hmem).1
      · intro h hmem; exact h3 h (List.mem_of_mem_erase hmem)
      · exact h4
      · intro h hmem
        rcases List.mem_cons.mp hmem with hm | hm
        · subst hm; exact h3 _ (by assumption)
        · exact h5 h hm
    · exact ⟨h1, h2, h3, h4, h5⟩
  | newBatch =>
    simp only [step, revokeAllS]
    refine ⟨?_, ?_, h3, ?_, ?_⟩
    · intro h hmem; simp at hmem
    · intro h hmem; simp at hmem
    · intro h hmem; simp at hmem
    · intro h hmem
      rcases List.mem_append.mp hmem with hm | hm
      · exact h2 h hm
      · exact h5 h hm
  | teardown =>
    simp only [step, revokeAllS]
    refine ⟨?_, ?_, h3, h4, ?_⟩
    · intro h hmem; simp at hmem
    · intro h hmem; simp at hmem
    · intro h hmem
      rcases List.mem_append.mp hmem with hm | hm
      · exact h2 h hm
      · exact h5 h hm

lemma good_foldl (evs : List Event) :
    ∀ st, GoodState st → GoodState (evs.foldl step st) := by
  induction evs with
  | nil => intro st hst; exact hst
  | cons e rest ih =>
    intro st hst
    exact ih (step st e) (good_step st e hst)

lemma good_run (evs : List Event) : GoodState (run evs) :=
  good_foldl evs initState good_init

lemma balancedTrace_pair :
    balancedTrace [UrlAction.create 0, UrlAction.revoke 0] := by
  decide

lemma jsRound_natCast (n : ℕ) : jsRound (n : ℚ) = n := by
  unfold jsRound
  rw [Int.floor_nat_add]
  norm_num

lemma thumbScale_of_le {w m : ℕ} (hw : 0 < w) (h : w ≤ m) : thumbScale w m = 1 := by
  unfold thumbScale
  rw [min_eq_right]
  rw [le_div_iff₀ (by exact_mod_cast hw), one_mul]
  exact_mod_cast h

lemma thumbScale_of_lt {w m : ℕ} (hw : 0 < w) (h : m < w) :
    thumbScale w m = (m : ℚ) / w := by
  unfold thumbScale
  rw [min_eq_left]
  rw [div_le_one (by exact_mod_cast hw)]
  exact_mod_cast h.le

lemma thumbWidth_le_min {w m : ℕ} (hw : 0 < w) :
    thumbWidth w m ≤ min (w : ℤ) (m : ℤ) := by
  rcases le_or_lt w m with h | h
  · have : thumbWidth w m = w := by
      unfold thumbWidth
      rw [thumbScale_of_le hw h, mul_one, jsRound_natCast]
    rw [this]
    exact le_min (le_refl _) (by exact_mod_cast h)
  · have hcancel : (w : ℚ) * ((m : ℚ) / w) = m := by
      field_simp
    have : thumbWidth w m = m := by
      unfold thumbWidth
      rw [thumbScale_of_lt hw h, hcancel, jsRound_natCast]
    rw [this]
    exact le_min (by exact_mod_cast h.le) (le_refl _)

/-! ## Concrete inputs used by witnesses -/

/-- A file named `a.heic` with an empty declared media type. -/
def fileAHeic : FileDesc := ⟨"a.heic".toList, "".toList⟩

/-- An environment in which the file classifies as HEIC and the
`heic-to` decoder fails. -/
def envHeicFail : FileEnv :=
  ⟨.ok true, .error "boom", .ok (1, 1), .ok "thumb", .ok (2, 2), .ok ()⟩

/-- An environment in which the HEIC classifier itself throws and all
platform operations succeed. -/
def envClassifierThrows : FileEnv :=
  ⟨.error "classifier crashed", .ok (), .ok (1, 1), .ok "thumb", .ok (2, 2), .ok ()⟩

/-! ## Claims -/

/-- C1: REFUTED by the code.  `convertImageFileToJpeg` (main.js
150-166) revokes the transient source object URL only on the success
path: when `loadImage` rejects (with the message of main.js 183), the
rejection propagates before `URL.revokeObjectURL(url)` on line 155
runs, so the action trace at this failing input contains the creation
of the handle but no revocation — the handle is leaked, contradicting
the spec sentence "immediately releases the transient reference once
decoding completes (success or failure)".  The third conjunct shows
the success path does revoke, so the leak is specific to decode
failure. -/
theorem convertImageFileToJpeg_leaks_url_on_decode_failure :
    (convertImageFileToJpeg (.error "Failed to load image") (.ok ())).2 =
      [UrlAction.create 0] ∧
    UrlAction.revoke 0 ∉
      (convertImageFileToJpeg (.error "Failed to load image") (.ok ())).2 ∧
    balancedTrace (convertImageFileToJpeg (.ok (4, 3)) (.ok ())).2 := by
  refine ⟨rfl, by decide, by decide⟩

/-- C2 (amended): each of the three revocation triggers fires
independently — they are not mutually cancelling, so a handle can be
revoked more than once (see the counterexample) — but the tracker set
never contains a revoked handle: in every reachable state, every
handle in `objectUrls` has zero revocations in the log. -/
theorem tracked_contains_no_revoked_handle (evs : List Event) (h : Nat)
    (hmem : h ∈ (run evs).tracked) : (run evs).log.count h = 0 :=
  (good_run evs).1 h hmem

theorem tracked_contains_no_revoked_handle_witness :
    0 ∈ (run [Event.add]).tracked ∧ (run [Event.add]).log.count 0 = 0 :=
  ⟨by decide, tracked_contains_no_revoked_handle [Event.add] 0 (by decide)⟩

/-- C2 counterexample: the claim "a download handle is revoked exactly
once, by whichever trigger occurs first" is false.  Trace: a result
row is presented (handle 0), the user clicks its download anchor
(scheduling the 1000 ms revocation timeout, main.js 238-241), a new
batch starts (revoking handle 0 and clearing the set, main.js
109-111), and then the still-pending timeout fires and revokes handle
0 a second time — the source never cancels the timeout.  The handle is
revoked twice, refuting at-most-once revocation. -/
theorem downloadHandle_double_revocation_cex :
    (run [Event.add, Event.click 0, Event.newBatch, Event.timer 0]).log.count 0
      = 2 ∧
    ¬ (∀ evs h, (run evs).log.count h ≤ 1) := by
  have h2 :
      (run [Event.add, Event.click 0, Event.newBatch, Event.timer 0]).log.count 0
        = 2 := by decide
  refine ⟨h2, fun hall => ?_⟩
  have := hall [Event.add, Event.click 0, Event.newBatch, Event.timer 0] 0
  omega

/-- C3: the input filter (main.js 95-100) keeps a file iff its
declared type starts with `image/` or its lower-cased name ends in
`.heic` or `.heif`; every other file is dropped.  The second conjunct
shows the decision is invariant under arbitrary re-casing of the
name (any function that changes only letter case), so any mixture of
upper/lower case in the extension is accepted. -/
theorem filter_keeps_iff (f : FileDesc) (files : List FileDesc)
    (c : Char → Char) (hc : ∀ ch, Char.toLower (c ch) = Char.toLower ch) :
    (f ∈ filterFiles files ↔
      f ∈ files ∧
        ("image/".toList <+: f.type ∨
          ".heic".toList <:+ f.name.map Char.toLower ∨
          ".heif".toList <:+ f.name.map Char.toLower)) ∧
    keepFile ⟨f.name.map c, f.type⟩ = keepFile f := by
  constructor
  · rw [filterFiles, List.mem_filter]
    unfold keepFile
    simp [List.isPrefixOf_iff_prefix, List.isSuffixOf_iff_suffix, or_assoc]
  · have hmap : (f.name.map c).map Char.toLower = f.name.map Char.toLower := by
      rw [List.map_map]
      exact List.map_congr_left fun a _ => hc a
    unfold keepFile
    rw [hmap]

theorem filter_keeps_iff_witness :
    (∀ ch, Char.toLower ((fun x => x) ch) = Char.toLower ch) ∧
    (((⟨"photo.HeIc".toList, "".toList⟩ : FileDesc) ∈
        filterFiles [⟨"photo.HeIc".toList, "".toList⟩] ↔
      (⟨"photo.HeIc".toList, "".toList⟩ : FileDesc) ∈
          [(⟨"photo.HeIc".toList, "".toList⟩ : FileDesc)] ∧
        ("image/".toList <+: ("".toList : List Char) ∨
          ".heic".toList <:+ "photo.HeIc".toList.map Char.toLower ∨
          ".heif".toList <:+ "photo.HeIc".toList.map Char.toLower)) ∧
      keepFile ⟨"photo.HeIc".toList.map (fun x => x), "".toList⟩ =
        keepFile ⟨"photo.HeIc".toList, "".toList⟩) :=
  ⟨fun _ => rfl,
    filter_keeps_iff ⟨"photo.HeIc".toList, "".toList⟩
      [⟨"photo.HeIc".toList, "".toList⟩] (fun x => x) fun _ => rfl⟩

/-- C4: for every input batch (and any prior tracker state), the
number of result rows plus the number of per-file failure log lines in
the output equals the number of files that passed the filter. -/
theorem rows_plus_failures_eq_filtered (inputs : List (FileDesc × FileEnv))
    (tracked0 : List Nat) (next0 : Nat) :
    countRows (processFiles inputs tracked0 next0).entries +
      countErrors (processFiles inputs tracked0 next0).entries =
      (inputs.filter fun p => keepFile p.1).length := by
  unfold processFiles
  split
  · rename_i hin
    have : inputs = [] := by simpa using hin
    subst this
    simp [countRows, countErrors]
  · split
    · rename_i hkept
      have : (inputs.filter fun p => keepFile p.1) = [] := by simpa using hkept
      rw [this]
      simp [countRows, countErrors]
    · exact (runBatchLoop_counts _ [] next0).1

/-- C5: per-file failures are caught per-file.  For any batch with a
nonempty filtered list: the terminal status is `Done.` no matter how
many files fail, every filtered file contributes exactly one terminal
entry (so no file aborts the loop), and every file whose conversion
fails is reported by an error log line naming the file and the
reason. -/
theorem batch_never_aborted (inputs : List (FileDesc × FileEnv))
    (tracked0 : List Nat) (next0 : Nat)
    (hne : inputs.filter (fun p => keepFile p.1) ≠ []) :
    (processFiles inputs tracked0 next0).status = "Done." ∧
    countTerminal (processFiles inputs tracked0 next0).entries =
      (inputs.filter fun p => keepFile p.1).length ∧
    ∀ p ∈ inputs.filter (fun p => keepFile p.1), ∀ msg,
      convertFileResult p.2 = .error msg →
        OutEntry.errorLog p.1.name msg ∈
          (processFiles inputs tracked0 next0).entries := by
  have hin : ¬ (inputs.isEmpty = true) := by
    intro h
    apply hne
    have : inputs = [] := by simpa using h
    simp [this]
  have hkept : ¬ ((inputs.filter fun p => keepFile p.1).isEmpty = true) := by
    intro h
    exact hne (by simpa using h)
  unfold processFiles
  rw [if_neg hin, if_neg hkept]
  refine ⟨rfl, (runBatchLoop_counts _ [] next0).2, ?_⟩
  intro p hp msg hmsg
  have hx : OutEntry.errorLog p.1.name msg ∈ processFile p.1 p.2 := by
    unfold processFile
    rw [hmsg]
    simp
  exact runBatchLoop_mem _ [] next0 p hp _ hx

theorem batch_never_aborted_witness :
    [(fileAHeic, envHeicFail)].filter (fun p => keepFile p.1) ≠ [] ∧
    ((processFiles [(fileAHeic, envHeicFail)] [] 0).status = "Done." ∧
      countTerminal (processFiles [(fileAHeic, envHeicFail)] [] 0).entries =
        ([(fileAHeic, envHeicFail)].filter fun p => keepFile p.1).length ∧
      ∀ p ∈ [(fileAHeic, envHeicFail)].filter (fun p => keepFile p.1), ∀ msg,
        convertFileResult p.2 = .error msg →
          OutEntry.errorLog p.1.name msg ∈
            (processFiles [(fileAHeic, envHeicFail)] [] 0).entries) :=
  have hne : [(fileAHeic, envHeicFail)].filter (fun p => keepFile p.1) ≠ [] := by
    have hlen :
        ([(fileAHeic, envHeicFail)].filter fun p => keepFile p.1).length = 1 := by
      decide
    intro h
    rw [h] at hlen
    simp at hlen
  ⟨hne, batch_never_aborted [(fileAHeic, envHeicFail)] [] 0 hne⟩

/-- C6: when the HEIC classifier throws, `safeIsHeic` (main.js
169-176) returns `false`, the file is routed to the Standard
Conversion Path, the file's conversion outcome is exactly the standard
path's outcome, and the file still produces exactly one terminal
output entry — so the classification failure never aborts the
batch. -/
theorem classifier_failure_routes_standard (e : FileEnv) (msg : Err)
    (hmsg : e.isHeicR = .error msg) :
    safeIsHeic e.isHeicR = false ∧
    route e = Path.standard ∧
    (convertFileResult e =
      match (convertImageFileToJpeg e.loadImageR e.encodeR).1 with
      | .error err => .error err
      | .ok _ => .ok ()) ∧
    ∀ f : FileDesc, countTerminal (processFile f e) = 1 := by
  have hsafe : safeIsHeic e.isHeicR = false := by
    rw [hmsg]
    rfl
  have hroute : route e = Path.standard := by
    unfold route
    rw [hsafe]
    rfl
  refine ⟨hsafe, hroute, ?_, fun f => (processFile_counts f e).2⟩
  unfold convertFileResult
  rw [hroute]

theorem classifier_failure_routes_standard_witness :
    envClassifierThrows.isHeicR = .error "classifier crashed" ∧
    (safeIsHeic envClassifierThrows.isHeicR = false ∧
      route envClassifierThrows = Path.standard ∧
      (convertFileResult envClassifierThrows =
        match (convertImageFileToJpeg envClassifierThrows.loadImageR
            envClassifierThrows.encodeR).1 with
        | .error err => .error err
        | .ok _ => .ok ()) ∧
      ∀ f : FileDesc, countTerminal (processFile f envClassifierThrows) = 1) :=
  ⟨rfl, classifier_failure_routes_standard envClassifierThrows
    "classifier crashed" rfl⟩

/-- C7: thumbnail generation never upscales.  The scale factor is
`min(maxWidth / width, 1)` (main.js 266 / 287), and for any positive
source width the resulting thumbnail width is at most
`min(width, maxWidth)` — for both the canvas-based entry point
(`createThumbnailDataUrl`) and the blob-based one
(`createThumbnailFromBlob`). -/
theorem thumbnail_never_upscales (w h m : ℕ) (hw : 0 < w) :
    thumbScale w m = min ((m : ℚ) / (w : ℚ)) 1 ∧
    thumbWidth w m ≤ min (w : ℤ) (m : ℤ) ∧
    (∀ dw dh, createThumbnailDataUrlDims w h m = some (dw, dh) →
      dw ≤ min (w : ℤ) (m : ℤ)) ∧
    (createThumbnailFromBlobDims w h m).1 ≤ min (w : ℤ) (m : ℤ) := by
  refine ⟨rfl, thumbWidth_le_min hw, ?_, thumbWidth_le_min hw⟩
  intro dw dh hdw
  unfold createThumbnailDataUrlDims at hdw
  split at hdw
  · exact absurd hdw (by simp)
  · rw [Option.some_inj] at hdw
    have h1 : dw = thumbWidth w m := by
      have := congrArg Prod.fst hdw
      simpa using this.symm
    rw [h1]
    exact thumbWidth_le_min hw

theorem thumbnail_never_upscales_witness :
    0 < 500 ∧
    (thumbScale 500 240 = min ((240 : ℚ) / (500 : ℚ)) 1 ∧
      thumbWidth 500 240 ≤ min (500 : ℤ) (240 : ℤ) ∧
      (∀ dw dh, createThumbnailDataUrlDims 500 300 240 = some (dw, dh) →
        dw ≤ min (500 : ℤ) (240 : ℤ)) ∧
      (createThumbnailFromBlobDims 500 300 240).1 ≤ min (500 : ℤ) (240 : ℤ)) :=
  ⟨by decide, thumbnail_never_upscales 500 300 240 (by decide)⟩

/-- C8: algebra of the tracker set (`objectUrls`): after a revoke-all
sweep (main.js 110-111 / 306-307) the tracked set is empty;
registering a handle (main.js 208) and then revoking the same handle
(main.js 239-240) leaves the set not containing it; and running the
revoke-all sweep twice in a row is a no-op the second time — the
second sweep finds an empty set, revokes nothing, and leaves the whole
state unchanged. -/
theorem tracker_set_invariants (st : AppState) (h : Nat) :
    (revokeAllS st).tracked = [] ∧
    h ∉ (trackerRevoke (trackerRegister st h) h).tracked ∧
    revokeAllS (revokeAllS st) = revokeAllS st := by
  refine ⟨rfl, ?_, rfl⟩
  intro hmem
  have := (List.mem_filter.mp hmem).2
  simp at this

/-- C9: the blob-based thumbnail entry point
(`createThumbnailFromBlob`, main.js 281-302) releases its transient
object URL on every exit path: whatever the outcomes of the image
decode and of the encode, the action trace contains exactly one
creation and exactly one revocation of the handle, and the revocation
is the last action before the call returns or propagates its error —
the `finally` clause of main.js 299-301. -/
theorem thumbnailFromBlob_always_revokes
    (load : Except Err (Nat × Nat)) (enc : Except Err String) :
    balancedTrace (createThumbnailFromBlob load enc).2 ∧
    (createThumbnailFromBlob load enc).2.getLast? =
      some (UrlAction.revoke 0) := by
  cases load with
  | error e => exact ⟨balancedTrace_pair, rfl⟩
  | ok p =>
    cases enc with
    | error e => exact ⟨balancedTrace_pair, rfl⟩
    | ok s => exact ⟨balancedTrace_pair, rfl⟩

/-- C10: a download handle is registered in the tracker set only when
a file's conversion fully succeeds (`addDownloadLink` is reached only
after every fallible step of the chosen path resolved): when the
conversion throws at any point, the tracker set and the handle counter
are left exactly as they were; on success exactly the one fresh handle
is appended. -/
theorem tracker_unchanged_on_conversion_failure (e : FileEnv)
    (tracked : List Nat) (next : Nat) :
    (∀ msg, convertFileResult e = .error msg →
      processFileTracker e tracked next = (tracked, next)) ∧
    (convertFileResult e = .ok () →
      processFileTracker e tracked next = (tracked ++ [next], next + 1)) := by
  constructor
  · intro msg hmsg
    unfold processFileTracker
    rw [hmsg]
  · intro hok
    unfold processFileTracker
    rw [hok]

theorem tracker_unchanged_on_conversion_failure_witness :
    convertFileResult envHeicFail = .error "boom" ∧
    processFileTracker envHeicFail [5] 7 = ([5], 7) :=
  ⟨rfl, (tracker_unchanged_on_conversion_failure envHeicFail [5] 7).1 "boom" rfl⟩

end HeicConv
